import Mathlib

/-!
Verification of the core of the arduino-ffat-upload extension
(src/extension.ts): the wear-leveling CRC-32 variant (wlCrc32), the
wear-leveling layout calculator (calculateWLLayout), the wear-leveling
image assembler (wrapWithWearLeveling), the numeric literal parser
(fancyParseInt) and the FAT-partition-table scanning loop of doOperation.

Modelling conventions:
  * JavaScript numbers are modelled as `Int` (all arithmetic performed by
    the source stays well inside the exact-integer range of doubles).
    `Math.floor(a / b)` is `Int.fdiv a b`; `Math.ceil(a / b)` (for b > 0)
    is `-Int.fdiv (-a) b`.
  * Node `Buffer`s are modelled as a length (`Int`) together with a byte
    function `Int → Nat`; `Buffer.copy`, `Buffer.subarray(0, n)`,
    `Buffer.alloc` and `writeUInt32LE` follow Node semantics (a copy
    writes `min src.size (dst.size - off)` bytes).
  * The 32-bit accumulator of the CRC is a `Nat` kept below 2^32; the
    JavaScript `>>> 1` is `/ 2` and `^` is `Nat.xor`.
  * `throw new Error(msg)` is `Except.error msg`.
-/

/-- The bit-reversed CRC-32 polynomial 0xEDB88320 used by the source. -/
def wlPoly : Nat := 0xEDB88320

/-- One round of the inner loop of `wlCrc32`:
`crc = (crc & 1) ? ((crc >>> 1) ^ 0xEDB88320) : (crc >>> 1)`. -/
def wlRound (crc : Nat) : Nat :=
  if crc % 2 = 1 then crc / 2 ^^^ wlPoly else crc / 2

/-- The inner `for (j = 0; j < 8; j++)` loop of `wlCrc32`: eight rounds. -/
def wlRound8 (crc : Nat) : Nat :=
  wlRound (wlRound (wlRound (wlRound (wlRound (wlRound (wlRound (wlRound crc)))))))

/-- Processing of one input byte by `wlCrc32`: `crc ^= buf[i]` followed by
the eight shift rounds. -/
def wlByte (crc b : Nat) : Nat := wlRound8 (crc ^^^ b)

/-- `wlCrc32(buf)` from the source: seed 0xFFFFFFFF, per-byte processing,
and no final complement (the `>>> 0` only reinterprets as unsigned, which
is the identity in this model). -/
def wlCrc32 (buf : List Nat) : Nat := buf.foldl wlByte 0xFFFFFFFF

/-- The record returned by `calculateWLLayout`. -/
structure WLLayout where
  stateSize : Int
  cfgSize : Int
  flashSize : Int
  maxPos : Int
  addrCfg : Int
  addrState1 : Int
  addrState2 : Int
deriving Repr, DecidableEq

/-- `Math.ceil(a / b)` for a positive divisor `b`. -/
def jsCeilDiv (a b : Int) : Int := -Int.fdiv (-a) b

/-- `calculateWLLayout(partitionSize, sectorSize)` from the source.  The
source gives `sectorSize` the default value 4096; every call site uses the
default, and the theorems below pass 4096 explicitly. -/
def calculateWLLayout (partitionSize sectorSize : Int) : WLLayout :=
  let cfgSize := jsCeilDiv 36 sectorSize * sectorSize
  let numSectors := Int.fdiv partitionSize sectorSize
  let stateRawSize := 64 + numSectors * 4
  let stateSize := jsCeilDiv stateRawSize sectorSize * sectorSize
  let addrCfg := partitionSize - cfgSize
  let addrState1 := partitionSize - cfgSize - stateSize * 2
  let addrState2 := partitionSize - cfgSize - stateSize
  let flashSize := (Int.fdiv addrState1 sectorSize - 1) * sectorSize
  let maxPos := Int.fdiv flashSize sectorSize + 1
  ⟨stateSize, cfgSize, flashSize, maxPos, addrCfg, addrState1, addrState2⟩

/-- A Node `Buffer`: a length and a byte-valued function on indices. -/
structure Buf where
  size : Int
  data : Int → Nat

/-- `Buffer.alloc(n, fill)`. -/
def bufAlloc (n : Int) (fill : Nat) : Buf := ⟨n, fun _ => fill⟩

/-- `src.copy(dst, off)` (Node copies `min src.size (dst.size - off)`
bytes of `src`, starting at index `off` of `dst`). -/
def bufCopy (src dst : Buf) (off : Int) : Buf :=
  ⟨dst.size, fun i =>
    if off ≤ i ∧ i < off + min src.size (dst.size - off) then src.data (i - off)
    else dst.data i⟩

/-- `buf.writeUInt32LE(v, off)`: the four bytes at `off .. off+3` become
the little-endian bytes of `v`.  Node rejects values outside [0, 2^32)
and offsets with `off + 4 > size`; every write performed by the source is
statically in bounds on its 36- or 64-byte buffer, and the written values
are non-negative under the hypotheses of the theorems below, where the
byte at `off + k` is exactly `v.toNat / 256 ^ k % 256`. -/
def bufWriteU32LE (b : Buf) (v : Int) (off : Int) : Buf :=
  ⟨b.size, fun i =>
    if off ≤ i ∧ i < off + 4 then v.toNat / 256 ^ (i - off).toNat % 256
    else b.data i⟩

/-- `buf.subarray(0, n)`. -/
def bufSub (b : Buf) (n : Int) : Buf := ⟨min n b.size, b.data⟩

/-- The byte list of a buffer, as fed to `wlCrc32`. -/
def bufBytes (b : Buf) : List Nat := (List.range b.size.toNat).map fun i => b.data (i : Int)

/-- Little-endian u32 read-back of four consecutive bytes of a buffer. -/
def readU32LE (b : Buf) (off : Int) : Nat :=
  b.data off + 256 * b.data (off + 1) + 65536 * b.data (off + 2) +
    16777216 * b.data (off + 3)

/-- The `wl_config_t` buffer of `wrapWithWearLeveling` just before its CRC
field is written: `Buffer.alloc(36, 0)` followed by the eight
`writeUInt32LE` field writes. -/
def mkConfigPre (partitionSize sectorSize : Int) : Buf :=
  let b := bufAlloc 36 0
  let b := bufWriteU32LE b 0 0
  let b := bufWriteU32LE b partitionSize 4
  let b := bufWriteU32LE b sectorSize 8
  let b := bufWriteU32LE b sectorSize 12
  let b := bufWriteU32LE b 16 16
  let b := bufWriteU32LE b 16 20
  let b := bufWriteU32LE b 2 24
  let b := bufWriteU32LE b 32 28
  b

/-- `configCrc = wlCrc32(configBuf.subarray(0, 32))` from the source. -/
def configRecordCrc (partitionSize sectorSize : Int) : Nat :=
  wlCrc32 (bufBytes (bufSub (mkConfigPre partitionSize sectorSize) 32))

/-- The finished 36-byte `wl_config_t` buffer (CRC written at offset 32). -/
def mkConfigRecord (partitionSize sectorSize : Int) : Buf :=
  bufWriteU32LE (mkConfigPre partitionSize sectorSize)
    (configRecordCrc partitionSize sectorSize) 32

/-- The `wl_state_t` header buffer just before its CRC field is written:
`Buffer.alloc(64, 0)` followed by the eight field writes (bytes 32-59 stay
zero, as in the source). -/
def mkStatePre (sectorSize maxPos : Int) (deviceId : Nat) : Buf :=
  let b := bufAlloc 64 0
  let b := bufWriteU32LE b 0 0
  let b := bufWriteU32LE b maxPos 4
  let b := bufWriteU32LE b 0 8
  let b := bufWriteU32LE b 0 12
  let b := bufWriteU32LE b 16 16
  let b := bufWriteU32LE b sectorSize 20
  let b := bufWriteU32LE b 2 24
  let b := bufWriteU32LE b (deviceId : Int) 28
  b

/-- `stateCrc = wlCrc32(stateHeader.subarray(0, 60))` from the source. -/
def stateRecordCrc (sectorSize maxPos : Int) (deviceId : Nat) : Nat :=
  wlCrc32 (bufBytes (bufSub (mkStatePre sectorSize maxPos deviceId) 60))

/-- The finished 64-byte `wl_state_t` header (CRC written at offset 60). -/
def mkStateHeader (sectorSize maxPos : Int) (deviceId : Nat) : Buf :=
  bufWriteU32LE (mkStatePre sectorSize maxPos deviceId)
    (stateRecordCrc sectorSize maxPos deviceId) 60

/-- The size-mismatch error message thrown by `wrapWithWearLeveling`. -/
def sizeMismatchMsg (imageLen flashSize partitionSize : Int) : String :=
  "FAT image size (" ++ toString imageLen ++
    ") doesn't match expected WL flash_size (" ++ toString flashSize ++
    "). Partition: " ++ toString partitionSize ++ ", expected FAT: " ++
    toString flashSize

/-- The success branch of `wrapWithWearLeveling`: 0xFF-filled partition
image, raw image copied at offset `sectorSize`, config record at
`addrCfg`, the identical state header (with `device_id = configCrc`) at
`addrState1` and `addrState2`. -/
def assembleImage (fatImage : Buf) (partitionSize sectorSize : Int) : Buf :=
  let L := calculateWLLayout partitionSize sectorSize
  let image := bufAlloc partitionSize 0xFF
  let image := bufCopy fatImage image sectorSize
  let configBuf := mkConfigRecord partitionSize sectorSize
  let image := bufCopy configBuf image L.addrCfg
  let deviceId := configRecordCrc partitionSize sectorSize
  let stateHeader := mkStateHeader sectorSize L.maxPos deviceId
  let image := bufCopy stateHeader image L.addrState1
  bufCopy stateHeader image L.addrState2

/-- `wrapWithWearLeveling(fatImage, partitionSize, sectorSize)` from the
source: size check, then the assembly of `assembleImage`. -/
def wrapWithWearLeveling (fatImage : Buf) (partitionSize sectorSize : Int) :
    Except String Buf :=
  let L := calculateWLLayout partitionSize sectorSize
  if fatImage.size ≠ L.flashSize then
    Except.error (sizeMismatchMsg fatImage.size L.flashSize partitionSize)
  else
    Except.ok (assembleImage fatImage partitionSize sectorSize)


/-! ### The numeric literal parser and the partition-table scan

Strings are modelled as `List Char`; `String.prototype.split` (single
character separator), `trim`, `toUpperCase`, `indexOf` and `substring`
are modelled by the list functions below.  A JavaScript number that can
be `NaN` is an `Option Int` (`none` = NaN); `jadd` is `+` with NaN
propagation, and `x === 0` is `x = some 0` (false on NaN). -/

/-- `s.trim()`: drop whitespace from both ends. -/
def trimChars (cs : List Char) : List Char :=
  ((cs.dropWhile Char.isWhitespace).reverse.dropWhile Char.isWhitespace).reverse

/-- `s.split(sep)` for a one-character separator. -/
def splitChar (sep : Char) : List Char → List (List Char)
  | [] => [[]]
  | c :: cs =>
    match splitChar sep cs with
    | [] => [[c]]
    | g :: gs => if c = sep then [] :: g :: gs else (c :: g) :: gs

/-- `s.indexOf(pat) >= 0`: `pat` occurs as a contiguous subsequence. -/
def containsSeq (pat : List Char) : List Char → Bool
  | [] => decide (pat = [])
  | c :: cs => pat.isPrefixOf (c :: cs) || containsSeq pat cs

/-- The numeric value of a digit character, if it is valid in `radix`
(ECMAScript `parseInt` accepts `0-9`, `a-z`, `A-Z` up to the radix). -/
def digitVal (radix : Nat) (c : Char) : Option Nat :=
  let v : Option Nat :=
    if '0' ≤ c ∧ c ≤ '9' then some (c.toNat - Char.toNat '0')
    else if 'a' ≤ c ∧ c ≤ 'z' then some (c.toNat - Char.toNat 'a' + 10)
    else if 'A' ≤ c ∧ c ≤ 'Z' then some (c.toNat - Char.toNat 'A' + 10)
    else none
  match v with
  | some d => if d < radix then some d else none
  | none => none

/-- The longest prefix of valid digits, as digit values. -/
def leadingDigits (radix : Nat) : List Char → List Nat
  | [] => []
  | c :: cs =>
    match digitVal radix c with
    | some d => d :: leadingDigits radix cs
    | none => []

/-- The optional `0x` / `0X` marker consumed by `parseInt` at radix 16. -/
def stripHexTag : List Char → List Char
  | '0' :: c :: r => if c = 'x' ∨ c = 'X' then r else '0' :: c :: r
  | cs => cs

/-- ECMAScript `parseInt(s, radix)` (NaN as `none`): skip leading
whitespace, an optional sign, the optional `0x` marker at radix 16, then
the longest digit prefix; NaN when that prefix is empty.  The source
calls it with radix 16 or with no radix; a missing radix behaves as 10
because `fancyParseInt` reaches those calls only for strings without a
`0x` marker. -/
def jsParseInt (cs : List Char) (radix : Nat) : Option Int :=
  let cs := cs.dropWhile Char.isWhitespace
  let sc : Int × List Char :=
    match cs with
    | '-' :: r => (-1, r)
    | '+' :: r => (1, r)
    | _ => (1, cs)
  let cs := if radix = 16 then stripHexTag sc.2 else sc.2
  let ds := leadingDigits radix cs
  if ds = [] then none
  else some (sc.1 * ((ds.foldl (fun a d => a * radix + d) 0 : Nat) : Int))

/-- `fancyParseInt(str)` from the source: trim + uppercase; empty → 0;
a string containing "0X" is parsed as hex from the ORIGINAL string;
otherwise the prefix before the first "K" (resp. "M") is scaled by 1024
(resp. 1024*1024); otherwise decimal. -/
def fancyParseInt (str : List Char) : Option Int :=
  let up := trimChars (str.map Char.toUpper)
  if up = [] then some 0
  else if containsSeq ['0', 'X'] up then jsParseInt str 16
  else if up.contains 'K' then
    (jsParseInt (up.takeWhile fun c => c ≠ 'K') 10).map fun n => 1024 * n
  else if up.contains 'M' then
    (jsParseInt (up.takeWhile fun c => c ≠ 'M') 10).map fun n => 1024 * 1024 * n
  else jsParseInt str 10

/-- NaN-propagating addition of JavaScript numbers. -/
def jadd : Option Int → Option Int → Option Int
  | some a, some b => some (a + b)
  | _, _ => none

/-- Strip the `#`-comment suffix of one line
(`line.substring(0, line.indexOf('#'))` when `#` occurs). -/
def stripLineComment (line : List Char) : List Char :=
  line.takeWhile fun c => c ≠ '#'

/-- One iteration of the partition-scanning loop of `doOperation`, acting
on the state `(lastend, fsStart, fsEnd)`. -/
def procLine (st : Option Int × Option Int × Option Int) (line : List Char) :
    Option Int × Option Int × Option Int :=
  let fields := splitChar ',' (stripLineComment line)
  if 4 < fields.length then
    let offset0 := fancyParseInt (fields.getD 3 [])
    let len := fancyParseInt (fields.getD 4 [])
    let offset := if offset0 = some 0 then st.1 else offset0
    let lastend := jadd offset len
    let subtype := trimChars ((fields.getD 2 []).map Char.toUpper)
    if subtype = ['F', 'A', 'T'] then (lastend, offset, jadd offset len)
    else (lastend, st.2.1, st.2.2)
  else st

/-- The partition-parsing phase of `doOperation`: scan all lines with the
cursor seeded at `0x8000 + 0xc00`, then fail when `fsStart` or `fsEnd` is
falsy (0 or NaN), else return `(fsStart, fsEnd)`. -/
def findFatPartition (text : List Char) : Except String (Int × Int) :=
  let st := (splitChar '\n' text).foldl procLine
    (some (0x8000 + 0xc00), some 0, some 0)
  match st.2.1, st.2.2 with
  | some s, some e =>
    if s = 0 ∨ e = 0 then
      Except.error "ERROR: FAT partition entry not found in csv file!"
    else Except.ok (s, e)
  | _, _ => Except.error "ERROR: FAT partition entry not found in csv file!"

/-- The data extracted from one qualifying row (more than 4 fields):
normalised subtype, parsed offset field, parsed size field.  This is the
per-row reading of the spec's partition-entry description. -/
def rowOfLine (line : List Char) : Option (List Char × Option Int × Option Int) :=
  let fields := splitChar ',' (stripLineComment line)
  if 4 < fields.length then
    some (trimChars ((fields.getD 2 []).map Char.toUpper),
      fancyParseInt (fields.getD 3 []), fancyParseInt (fields.getD 4 []))
  else none

/-- All qualifying rows of a list of lines. -/
def qualOfLines (lines : List (List Char)) :
    List (List Char × Option Int × Option Int) :=
  lines.filterMap rowOfLine

/-- All qualifying rows of a partition-table text. -/
def qualRows (text : List Char) : List (List Char × Option Int × Option Int) :=
  qualOfLines (splitChar '\n' text)

/-- Modelled from the spec's description of offset resolution: each row's
offset is the parsed field 3 unless that value is exactly 0, in which
case it is the running cursor; the row's end is offset + size, and the
cursor advances to offset + size after every qualifying row. -/
def resolveRows (cursor : Option Int) :
    List (List Char × Option Int × Option Int) →
      List (List Char × Option Int × Option Int)
  | [] => []
  | (sub, off0, len) :: rest =>
    let off := if off0 = some 0 then cursor else off0
    let e := jadd off len
    (sub, off, e) :: resolveRows e rest

/-- The FAT-subtype rows of a table, with offsets resolved from the
cursor seeded at `0x8000 + 0xc00`: the spec-side description of what the
parser scans for. -/
def fatRows (text : List Char) : List (List Char × Option Int × Option Int) :=
  (resolveRows (some (0x8000 + 0xc00)) (qualRows text)).filter
    fun r => decide (r.1 = ['F', 'A', 'T'])

/-! ### Arithmetic facts about `Int.fdiv` (JavaScript `Math.floor`) -/

theorem fdiv_bounds (a : Int) {b : Int} (hb : 0 < b) :
    b * Int.fdiv a b ≤ a ∧ a < b * Int.fdiv a b + b := by
  rw [Int.fdiv_eq_ediv _ hb.le]
  have h1 := Int.ediv_add_emod a b
  have h2 := Int.emod_nonneg a (ne_of_gt hb)
  have h3 := Int.emod_lt_of_pos a hb
  constructor <;> linarith

theorem jsCeilDiv_bounds (a : Int) {b : Int} (hb : 0 < b) :
    a ≤ jsCeilDiv a b * b ∧ jsCeilDiv a b * b < a + b := by
  have h := fdiv_bounds (-a) hb
  unfold jsCeilDiv
  constructor <;> nlinarith [h.1, h.2]

theorem jsCeilDiv_pos {a b : Int} (ha : 0 < a) (hb : 0 < b) :
    0 < jsCeilDiv a b := by
  have h := (jsCeilDiv_bounds a hb).1
  by_contra hc
  push_neg at hc
  nlinarith

theorem fdiv_nonneg_of_nonneg {a b : Int} (ha : 0 ≤ a) (hb : 0 < b) :
    0 ≤ Int.fdiv a b := by
  have h := (fdiv_bounds a hb).2
  by_contra hc
  push_neg at hc
  nlinarith

/-! ### C3 and C4: layout calculator invariants -/

/-- C3: for every partitionSize and sectorSize with the partition large
enough that flashSize is positive, the layout returned by
`calculateWLLayout` satisfies `addrCfg + cfgSize = partitionSize`,
`addrState2 + stateSize = addrCfg`, `addrState1 + stateSize = addrState2`,
`flashSize = (floor(addrState1 / sectorSize) - 1) * sectorSize`, and
`flashSize < partitionSize`. -/
theorem claim_C3_layout_invariants (partitionSize sectorSize : Int)
    (hs : 0 < sectorSize) (hP : 0 < partitionSize)
    (hf : 0 < (calculateWLLayout partitionSize sectorSize).flashSize) :
    (calculateWLLayout partitionSize sectorSize).addrCfg +
        (calculateWLLayout partitionSize sectorSize).cfgSize = partitionSize ∧
    (calculateWLLayout partitionSize sectorSize).addrState2 +
        (calculateWLLayout partitionSize sectorSize).stateSize =
      (calculateWLLayout partitionSize sectorSize).addrCfg ∧
    (calculateWLLayout partitionSize sectorSize).addrState1 +
        (calculateWLLayout partitionSize sectorSize).stateSize =
      (calculateWLLayout partitionSize sectorSize).addrState2 ∧
    (calculateWLLayout partitionSize sectorSize).flashSize =
      (Int.fdiv (calculateWLLayout partitionSize sectorSize).addrState1 sectorSize - 1) *
        sectorSize ∧
    (calculateWLLayout partitionSize sectorSize).flashSize < partitionSize := by
  refine ⟨?_, ?_, ?_, ?_, ?_⟩
  · simp only [calculateWLLayout]; ring
  · simp only [calculateWLLayout]; ring
  · simp only [calculateWLLayout]; ring
  · rfl
  simp only [calculateWLLayout]
  have hcfg1 : 0 < jsCeilDiv 36 sectorSize := jsCeilDiv_pos (by norm_num) hs
  have hcfg : sectorSize ≤ jsCeilDiv 36 sectorSize * sectorSize := by nlinarith
  have hn : 0 ≤ Int.fdiv partitionSize sectorSize := fdiv_nonneg_of_nonneg hP.le hs
  have hraw : (0 : Int) < 64 + Int.fdiv partitionSize sectorSize * 4 := by linarith
  have hst1 : 0 < jsCeilDiv (64 + Int.fdiv partitionSize sectorSize * 4) sectorSize :=
    jsCeilDiv_pos hraw hs
  have hst : 0 < jsCeilDiv (64 + Int.fdiv partitionSize sectorSize * 4) sectorSize *
      sectorSize := by positivity
  have hq := (fdiv_bounds (partitionSize - jsCeilDiv 36 sectorSize * sectorSize -
      jsCeilDiv (64 + Int.fdiv partitionSize sectorSize * 4) sectorSize * sectorSize * 2)
      hs).1
  nlinarith

/-- C4: for partitionSize = 0x170000 and sectorSize = 4096,
`calculateWLLayout` returns cfgSize = 4096 and a flashSize that is exactly
one sector (4096 bytes) below `partitionSize - 2*stateSize - cfgSize`. -/
theorem claim_C4_layout_0x170000 :
    (calculateWLLayout 0x170000 4096).cfgSize = 4096 ∧
    (calculateWLLayout 0x170000 4096).flashSize + 4096 =
      0x170000 - 2 * (calculateWLLayout 0x170000 4096).stateSize -
        (calculateWLLayout 0x170000 4096).cfgSize ∧
    (calculateWLLayout 0x170000 4096).flashSize <
      0x170000 - 2 * (calculateWLLayout 0x170000 4096).stateSize -
        (calculateWLLayout 0x170000 4096).cfgSize := by
  refine ⟨by decide, by decide, by decide⟩

/-- Witness for C3 at partitionSize = 0x170000, sectorSize = 4096. -/
theorem claim_C3_layout_invariants_witness :
    ((0 : Int) < 4096 ∧ (0 : Int) < 0x170000 ∧
      0 < (calculateWLLayout 0x170000 4096).flashSize) ∧
    ((calculateWLLayout 0x170000 4096).addrCfg +
        (calculateWLLayout 0x170000 4096).cfgSize = 0x170000 ∧
    (calculateWLLayout 0x170000 4096).addrState2 +
        (calculateWLLayout 0x170000 4096).stateSize =
      (calculateWLLayout 0x170000 4096).addrCfg ∧
    (calculateWLLayout 0x170000 4096).addrState1 +
        (calculateWLLayout 0x170000 4096).stateSize =
      (calculateWLLayout 0x170000 4096).addrState2 ∧
    (calculateWLLayout 0x170000 4096).flashSize =
      (Int.fdiv (calculateWLLayout 0x170000 4096).addrState1 4096 - 1) * 4096 ∧
    (calculateWLLayout 0x170000 4096).flashSize < 0x170000) :=
  ⟨⟨by decide, by decide, by decide⟩,
    claim_C3_layout_invariants 0x170000 4096 (by decide) (by decide) (by decide)⟩

/-! ### C7: the assembler rejects any raw image whose length differs from
flashSize -/

/-- C7: whenever the input raw image length differs from the layout's
flashSize, `wrapWithWearLeveling` throws the size-mismatch error and
produces no output buffer (the image is never truncated or padded). -/
theorem claim_C7_size_mismatch (fatImage : Buf) (partitionSize sectorSize : Int)
    (h : fatImage.size ≠ (calculateWLLayout partitionSize sectorSize).flashSize) :
    wrapWithWearLeveling fatImage partitionSize sectorSize =
      Except.error (sizeMismatchMsg fatImage.size
        (calculateWLLayout partitionSize sectorSize).flashSize partitionSize) := by
  simp only [wrapWithWearLeveling]
  rw [if_pos h]

/-- Witness for C7: a 0-byte image against partition 0x170000. -/
theorem claim_C7_size_mismatch_witness :
    ((bufAlloc 0 0).size ≠ (calculateWLLayout 0x170000 4096).flashSize) ∧
    wrapWithWearLeveling (bufAlloc 0 0) 0x170000 4096 =
      Except.error (sizeMismatchMsg (bufAlloc 0 0).size
        (calculateWLLayout 0x170000 4096).flashSize 0x170000) :=
  ⟨by decide, claim_C7_size_mismatch (bufAlloc 0 0) 0x170000 4096 (by decide)⟩

/-! ### C5: the CRC-32 variant and its avalanche property -/

theorem xor_poly_ge {a : Nat} (ha : a < 2 ^ 31) : 2 ^ 31 ≤ a ^^^ wlPoly := by
  by_contra hlt
  push_neg at hlt
  have hfalse := Nat.testBit_lt_two_pow hlt
  rw [Nat.testBit_xor, Nat.testBit_lt_two_pow ha] at hfalse
  simp only [Bool.false_xor] at hfalse
  exact absurd hfalse (by decide)

theorem wlRound_lt {c : Nat} (h : c < 2 ^ 32) : wlRound c < 2 ^ 32 := by
  unfold wlRound
  split
  · exact Nat.xor_lt_two_pow (by omega) (by decide)
  · omega

theorem wlRound_inj {c1 c2 : Nat} (h1 : c1 < 2 ^ 32) (h2 : c2 < 2 ^ 32)
    (h : wlRound c1 = wlRound c2) : c1 = c2 := by
  unfold wlRound at h
  by_cases o1 : c1 % 2 = 1 <;> by_cases o2 : c2 % 2 = 1 <;>
      simp only [o1, o2, if_true, if_false, if_pos, if_neg, not_false_iff] at h
  · have h' : c1 / 2 = c2 / 2 := by
      have hx := congrArg (· ^^^ wlPoly) h
      simpa [Nat.xor_cancel_right] using hx
    omega
  · exfalso
    have hge := xor_poly_ge (show c1 / 2 < 2 ^ 31 by omega)
    rw [h] at hge
    omega
  · exfalso
    have hge := xor_poly_ge (show c2 / 2 < 2 ^ 31 by omega)
    rw [← h] at hge
    omega
  · omega

theorem wlRound8_lt {c : Nat} (h : c < 2 ^ 32) : wlRound8 c < 2 ^ 32 := by
  unfold wlRound8
  exact wlRound_lt (wlRound_lt (wlRound_lt (wlRound_lt (wlRound_lt (wlRound_lt
    (wlRound_lt (wlRound_lt h)))))))

theorem wlRound8_inj {c1 c2 : Nat} (h1 : c1 < 2 ^ 32) (h2 : c2 < 2 ^ 32)
    (h : wlRound8 c1 = wlRound8 c2) : c1 = c2 := by
  unfold wlRound8 at h
  have p1 : wlRound c1 < 2 ^ 32 := wlRound_lt h1
  have p2 := wlRound_lt p1
  have p3 := wlRound_lt p2
  have p4 := wlRound_lt p3
  have p5 := wlRound_lt p4
  have p6 := wlRound_lt p5
  have p7 := wlRound_lt p6
  have q1 : wlRound c2 < 2 ^ 32 := wlRound_lt h2
  have q2 := wlRound_lt q1
  have q3 := wlRound_lt q2
  have q4 := wlRound_lt q3
  have q5 := wlRound_lt q4
  have q6 := wlRound_lt q5
  have q7 := wlRound_lt q6
  exact wlRound_inj h1 h2 (wlRound_inj p1 q1 (wlRound_inj p2 q2 (wlRound_inj p3 q3
    (wlRound_inj p4 q4 (wlRound_inj p5 q5 (wlRound_inj p6 q6
      (wlRound_inj p7 q7 h)))))))

theorem wlByte_lt {c b : Nat} (hc : c < 2 ^ 32) (hb : b < 2 ^ 32) :
    wlByte c b < 2 ^ 32 :=
  wlRound8_lt (Nat.xor_lt_two_pow hc hb)

theorem wlByte_inj_left {c1 c2 b : Nat} (h1 : c1 < 2 ^ 32) (h2 : c2 < 2 ^ 32)
    (hb : b < 2 ^ 32) (hne : c1 ≠ c2) : wlByte c1 b ≠ wlByte c2 b := by
  intro h
  apply hne
  have hx := wlRound8_inj (Nat.xor_lt_two_pow h1 hb) (Nat.xor_lt_two_pow h2 hb) h
  have := congrArg (· ^^^ b) hx
  simpa [Nat.xor_cancel_right] using this

theorem wlByte_inj_byte {c b1 b2 : Nat} (hc : c < 2 ^ 32) (hb1 : b1 < 2 ^ 32)
    (hb2 : b2 < 2 ^ 32) (hne : b1 ≠ b2) : wlByte c b1 ≠ wlByte c b2 := by
  intro h
  apply hne
  have hx := wlRound8_inj (Nat.xor_lt_two_pow hc hb1) (Nat.xor_lt_two_pow hc hb2) h
  have hy := congrArg (fun y => c ^^^ y) hx
  simpa [Nat.xor_cancel_left] using hy

theorem crc_foldl_lt {l : List Nat} (hl : ∀ x ∈ l, x < 2 ^ 32) {c : Nat}
    (hc : c < 2 ^ 32) : l.foldl wlByte c < 2 ^ 32 := by
  induction l generalizing c with
  | nil => exact hc
  | cons x xs ih =>
    exact ih (fun y hy => hl y (List.mem_cons_of_mem x hy))
      (wlByte_lt hc (hl x (List.mem_cons_self x xs)))

theorem crc_foldl_ne {l : List Nat} (hl : ∀ x ∈ l, x < 2 ^ 32) {c1 c2 : Nat}
    (h1 : c1 < 2 ^ 32) (h2 : c2 < 2 ^ 32) (hne : c1 ≠ c2) :
    l.foldl wlByte c1 ≠ l.foldl wlByte c2 := by
  induction l generalizing c1 c2 with
  | nil => exact hne
  | cons x xs ih =>
    have hx := hl x (List.mem_cons_self x xs)
    exact ih (fun y hy => hl y (List.mem_cons_of_mem x hy))
      (wlByte_lt h1 hx) (wlByte_lt h2 hx) (wlByte_inj_left h1 h2 hx hne)

/-- C5: `wlCrc32` implements the shift-right CRC-32 variant with
polynomial 0xEDB88320, seed 0xFFFFFFFF and no final complement (this is
the definition of `wlRound`, `wlRound8`, `wlByte`, `wlCrc32`), and
consequently changing any single byte of a byte buffer changes the
output. -/
theorem claim_C5_crc32_avalanche (pre suf : List Nat) (b1 b2 : Nat)
    (hpre : ∀ x ∈ pre, x < 256) (hsuf : ∀ x ∈ suf, x < 256)
    (hb1 : b1 < 256) (hb2 : b2 < 256) (hne : b1 ≠ b2) :
    wlCrc32 (pre ++ b1 :: suf) ≠ wlCrc32 (pre ++ b2 :: suf) := by
  unfold wlCrc32
  rw [List.foldl_append, List.foldl_append]
  simp only [List.foldl_cons]
  have hlt : (256 : Nat) < 2 ^ 32 := by norm_num
  have hb1' : b1 < 2 ^ 32 := lt_trans hb1 hlt
  have hb2' : b2 < 2 ^ 32 := lt_trans hb2 hlt
  have hsuf' : ∀ x ∈ suf, x < 2 ^ 32 := fun x hx => lt_trans (hsuf x hx) hlt
  have hc0 : pre.foldl wlByte 0xFFFFFFFF < 2 ^ 32 :=
    crc_foldl_lt (fun x hx => lt_trans (hpre x hx) hlt) (by norm_num)
  exact crc_foldl_ne hsuf' (wlByte_lt hc0 hb1') (wlByte_lt hc0 hb2')
    (wlByte_inj_byte hc0 hb1' hb2' hne)

/-- Witness for C5: flipping the single byte of a one-byte buffer changes
the CRC; `wlCrc32 [0]` and `wlCrc32 [1]` indeed evaluate differently. -/
theorem claim_C5_crc32_avalanche_witness :
    ((∀ x ∈ ([] : List Nat), x < 256) ∧ (0 : Nat) < 256 ∧ (1 : Nat) < 256 ∧
      (0 : Nat) ≠ 1) ∧
    wlCrc32 ([] ++ 0 :: []) ≠ wlCrc32 ([] ++ 1 :: []) :=
  ⟨⟨by simp, by decide, by decide, by decide⟩,
    claim_C5_crc32_avalanche [] [] 0 1 (by simp) (by simp) (by decide) (by decide)
      (by decide)⟩

/-! ### Buffer access lemmas -/

theorem bufAlloc_size (n : Int) (fill : Nat) : (bufAlloc n fill).size = n := rfl

theorem bufCopy_size (src dst : Buf) (off : Int) : (bufCopy src dst off).size = dst.size := rfl

theorem bufWriteU32LE_size (b : Buf) (v off : Int) : (bufWriteU32LE b v off).size = b.size := rfl

theorem mkConfigPre_size (P s : Int) : (mkConfigPre P s).size = 36 := rfl

theorem mkConfigRecord_size (P s : Int) : (mkConfigRecord P s).size = 36 := rfl

theorem mkStatePre_size (s m : Int) (d : Nat) : (mkStatePre s m d).size = 64 := rfl

theorem mkStateHeader_size (s m : Int) (d : Nat) : (mkStateHeader s m d).size = 64 := rfl

theorem bufCopy_data_skip {src dst : Buf} {off i : Int}
    (h : i < off ∨ off + src.size ≤ i) :
    (bufCopy src dst off).data i = dst.data i := by
  simp only [bufCopy]
  rw [if_neg]
  intro hc
  have hm : min src.size (dst.size - off) ≤ src.size := min_le_left _ _
  rcases h with h | h
  · omega
  · omega

theorem bufCopy_data_take {src dst : Buf} {off i : Int}
    (hfit : off + src.size ≤ dst.size) (h1 : off ≤ i) (h2 : i < off + src.size) :
    (bufCopy src dst off).data i = src.data (i - off) := by
  simp only [bufCopy]
  rw [if_pos]
  have hm : min src.size (dst.size - off) = src.size := min_eq_left (by omega)
  exact ⟨h1, by omega⟩

theorem writeU32_data_out {b : Buf} {v off i : Int} (h : i < off ∨ off + 4 ≤ i) :
    (bufWriteU32LE b v off).data i = b.data i := by
  simp only [bufWriteU32LE]
  rw [if_neg]
  omega

theorem writeU32_data_here {b : Buf} {v off i : Int} (h1 : off ≤ i) (h2 : i < off + 4) :
    (bufWriteU32LE b v off).data i = v.toNat / 256 ^ (i - off).toNat % 256 := by
  simp only [bufWriteU32LE]
  rw [if_pos ⟨h1, h2⟩]

theorem readU32_write_out (b : Buf) (v off k : Int) (h : k + 4 ≤ off ∨ off + 4 ≤ k) :
    readU32LE (bufWriteU32LE b v off) k = readU32LE b k := by
  unfold readU32LE
  rw [@writeU32_data_out b v off k (by omega), @writeU32_data_out b v off (k + 1) (by omega),
    @writeU32_data_out b v off (k + 2) (by omega),
    @writeU32_data_out b v off (k + 3) (by omega)]

theorem readU32_write_here (b : Buf) (v k : Int) :
    readU32LE (bufWriteU32LE b v k) k = v.toNat % 4294967296 := by
  unfold readU32LE
  rw [@writeU32_data_here b v k k (le_refl k) (by omega),
    @writeU32_data_here b v k (k + 1) (by omega) (by omega),
    @writeU32_data_here b v k (k + 2) (by omega) (by omega),
    @writeU32_data_here b v k (k + 3) (by omega) (by omega)]
  have e0 : (k - k).toNat = 0 := by omega
  have e1 : (k + 1 - k).toNat = 1 := by omega
  have e2 : (k + 2 - k).toNat = 2 := by omega
  have e3 : (k + 3 - k).toNat = 3 := by omega
  rw [e0, e1, e2, e3]
  norm_num
  omega

/-! ### Field values of the config record and the state header -/

theorem mkConfigRecord_read_0 (P s : Int) :
    readU32LE (mkConfigRecord P s) 0 = 0 := by
  simp only [mkConfigRecord, mkConfigPre]
  rw [readU32_write_out, readU32_write_out, readU32_write_out, readU32_write_out, readU32_write_out, readU32_write_out, readU32_write_out, readU32_write_out, readU32_write_here] <;> first | omega | simp [Int.toNat_natCast]

theorem mkConfigRecord_read_4 (P s : Int) :
    readU32LE (mkConfigRecord P s) 4 = P.toNat % 4294967296 := by
  simp only [mkConfigRecord, mkConfigPre]
  rw [readU32_write_out, readU32_write_out, readU32_write_out, readU32_write_out, readU32_write_out, readU32_write_out, readU32_write_out, readU32_write_here] <;> first | omega | simp [Int.toNat_natCast]

theorem mkConfigRecord_read_8 (P s : Int) :
    readU32LE (mkConfigRecord P s) 8 = s.toNat % 4294967296 := by
  simp only [mkConfigRecord, mkConfigPre]
  rw [readU32_write_out, readU32_write_out, readU32_write_out, readU32_write_out, readU32_write_out, readU32_write_out, readU32_write_here] <;> first | omega | simp [Int.toNat_natCast]

theorem mkConfigRecord_read_12 (P s : Int) :
    readU32LE (mkConfigRecord P s) 12 = s.toNat % 4294967296 := by
  simp only [mkConfigRecord, mkConfigPre]
  rw [readU32_write_out, readU32_write_out, readU32_write_out, readU32_write_out, readU32_write_out, readU32_write_here] <;> first | omega | simp [Int.toNat_natCast]

theorem mkConfigRecord_read_16 (P s : Int) :
    readU32LE (mkConfigRecord P s) 16 = 16 := by
  simp only [mkConfigRecord, mkConfigPre]
  rw [readU32_write_out, readU32_write_out, readU32_write_out, readU32_write_out, readU32_write_here] <;> first | omega | simp [Int.toNat_natCast]

theorem mkConfigRecord_read_20 (P s : Int) :
    readU32LE (mkConfigRecord P s) 20 = 16 := by
  simp only [mkConfigRecord, mkConfigPre]
  rw [readU32_write_out, readU32_write_out, readU32_write_out, readU32_write_here] <;> first | omega | simp [Int.toNat_natCast]

theorem mkConfigRecord_read_24 (P s : Int) :
    readU32LE (mkConfigRecord P s) 24 = 2 := by
  simp only [mkConfigRecord, mkConfigPre]
  rw [readU32_write_out, readU32_write_out, readU32_write_here] <;> first | omega | simp [Int.toNat_natCast]

theorem mkConfigRecord_read_28 (P s : Int) :
    readU32LE (mkConfigRecord P s) 28 = 32 := by
  simp only [mkConfigRecord, mkConfigPre]
  rw [readU32_write_out, readU32_write_here] <;> first | omega | simp [Int.toNat_natCast]

theorem mkConfigRecord_read_32 (P s : Int) :
    readU32LE (mkConfigRecord P s) 32 = configRecordCrc P s % 4294967296 := by
  simp only [mkConfigRecord, mkConfigPre]
  rw [readU32_write_here] <;> first | omega | simp [Int.toNat_natCast]

theorem mkStateHeader_read_0 (s m : Int) (d : Nat) :
    readU32LE (mkStateHeader s m d) 0 = 0 := by
  simp only [mkStateHeader, mkStatePre]
  rw [readU32_write_out, readU32_write_out, readU32_write_out, readU32_write_out, readU32_write_out, readU32_write_out, readU32_write_out, readU32_write_out, readU32_write_here] <;> first | omega | simp [Int.toNat_natCast]

theorem mkStateHeader_read_4 (s m : Int) (d : Nat) :
    readU32LE (mkStateHeader s m d) 4 = m.toNat % 4294967296 := by
  simp only [mkStateHeader, mkStatePre]
  rw [readU32_write_out, readU32_write_out, readU32_write_out, readU32_write_out, readU32_write_out, readU32_write_out, readU32_write_out, readU32_write_here] <;> first | omega | simp [Int.toNat_natCast]

theorem mkStateHeader_read_8 (s m : Int) (d : Nat) :
    readU32LE (mkStateHeader s m d) 8 = 0 := by
  simp only [mkStateHeader, mkStatePre]
  rw [readU32_write_out, readU32_write_out, readU32_write_out, readU32_write_out, readU32_write_out, readU32_write_out, readU32_write_here] <;> first | omega | simp [Int.toNat_natCast]

theorem mkStateHeader_read_12 (s m : Int) (d : Nat) :
    readU32LE (mkStateHeader s m d) 12 = 0 := by
  simp only [mkStateHeader, mkStatePre]
  rw [readU32_write_out, readU32_write_out, readU32_write_out, readU32_write_out, readU32_write_out, readU32_write_here] <;> first | omega | simp [Int.toNat_natCast]

theorem mkStateHeader_read_16 (s m : Int) (d : Nat) :
    readU32LE (mkStateHeader s m d) 16 = 16 := by
  simp only [mkStateHeader, mkStatePre]
  rw [readU32_write_out, readU32_write_out, readU32_write_out, readU32_write_out, readU32_write_here] <;> first | omega | simp [Int.toNat_natCast]

theorem mkStateHeader_read_20 (s m : Int) (d : Nat) :
    readU32LE (mkStateHeader s m d) 20 = s.toNat % 4294967296 := by
  simp only [mkStateHeader, mkStatePre]
  rw [readU32_write_out, readU32_write_out, readU32_write_out, readU32_write_here] <;> first | omega | simp [Int.toNat_natCast]

theorem mkStateHeader_read_24 (s m : Int) (d : Nat) :
    readU32LE (mkStateHeader s m d) 24 = 2 := by
  simp only [mkStateHeader, mkStatePre]
  rw [readU32_write_out, readU32_write_out, readU32_write_here] <;> first | omega | simp [Int.toNat_natCast]

theorem mkStateHeader_read_28 (s m : Int) (d : Nat) :
    readU32LE (mkStateHeader s m d) 28 = d % 4294967296 := by
  simp only [mkStateHeader, mkStatePre]
  rw [readU32_write_out, readU32_write_here] <;> first | omega | simp [Int.toNat_natCast]

theorem mkStateHeader_read_60 (s m : Int) (d : Nat) :
    readU32LE (mkStateHeader s m d) 60 = stateRecordCrc s m d % 4294967296 := by
  simp only [mkStateHeader, mkStatePre]
  rw [readU32_write_here] <;> first | omega | simp [Int.toNat_natCast]

theorem mkConfigRecord_data_low (P s : Int) {j : Int} (hj : j < 32) :
    (mkConfigRecord P s).data j = (mkConfigPre P s).data j := by
  simp only [mkConfigRecord]
  exact writeU32_data_out (Or.inl hj)

theorem mkStateHeader_data_low (s m : Int) (d : Nat) {j : Int} (hj : j < 60) :
    (mkStateHeader s m d).data j = (mkStatePre s m d).data j := by
  simp only [mkStateHeader]
  exact writeU32_data_out (Or.inl hj)

theorem mkStatePre_data_high (s m : Int) (d : Nat) {j : Int} (hj : 32 ≤ j) :
    (mkStatePre s m d).data j = 0 := by
  simp only [mkStatePre]
  rw [writeU32_data_out (Or.inr (by omega)), writeU32_data_out (Or.inr (by omega)),
    writeU32_data_out (Or.inr (by omega)), writeU32_data_out (Or.inr (by omega)),
    writeU32_data_out (Or.inr (by omega)), writeU32_data_out (Or.inr (by omega)),
    writeU32_data_out (Or.inr (by omega)), writeU32_data_out (Or.inr (by omega))]
  rfl

theorem configRecordCrc_eq (P s : Int) :
    configRecordCrc P s =
      wlCrc32 ((List.range 32).map fun i => (mkConfigPre P s).data (i : Int)) := rfl

theorem stateRecordCrc_eq (s m : Int) (d : Nat) :
    stateRecordCrc s m d =
      wlCrc32 ((List.range 60).map fun i => (mkStatePre s m d).data (i : Int)) := rfl

/-! ### Layout facts at the default sector size 4096 -/

theorem fdiv4096 (a : Int) : Int.fdiv a 4096 = a / 4096 :=
  Int.fdiv_eq_ediv a (by norm_num)

theorem layout_facts_4096 (P : Int)
    (hf : 0 < (calculateWLLayout P 4096).flashSize) :
    (calculateWLLayout P 4096).cfgSize = 4096 ∧
    4096 ≤ (calculateWLLayout P 4096).stateSize ∧
    (calculateWLLayout P 4096).addrState1 + (calculateWLLayout P 4096).stateSize =
      (calculateWLLayout P 4096).addrState2 ∧
    (calculateWLLayout P 4096).addrState2 + (calculateWLLayout P 4096).stateSize =
      (calculateWLLayout P 4096).addrCfg ∧
    (calculateWLLayout P 4096).addrCfg + 4096 = P ∧
    8192 ≤ (calculateWLLayout P 4096).addrState1 ∧
    (calculateWLLayout P 4096).flashSize + 4096 ≤
      (calculateWLLayout P 4096).addrState1 ∧
    1 ≤ (calculateWLLayout P 4096).maxPos ∧
    (calculateWLLayout P 4096).maxPos * 4096 ≤ P ∧
    0 < P := by
  simp only [calculateWLLayout, jsCeilDiv, fdiv4096] at hf ⊢
  omega

/-! ### Bytes of the assembled image -/

theorem assemble_size (fat : Buf) (P s : Int) : (assembleImage fat P s).size = P := rfl

theorem wrap_ok (fat : Buf) (P s : Int)
    (hsz : fat.size = (calculateWLLayout P s).flashSize) :
    wrapWithWearLeveling fat P s = Except.ok (assembleImage fat P s) := by
  unfold wrapWithWearLeveling
  rw [if_neg (by simp [hsz])]

theorem assemble_data_cfg (fat : Buf) (P : Int)
    (hf : 0 < (calculateWLLayout P 4096).flashSize) {j : Int}
    (hj0 : 0 ≤ j) (hj : j < 36) :
    (assembleImage fat P 4096).data ((calculateWLLayout P 4096).addrCfg + j) =
      (mkConfigRecord P 4096).data j := by
  obtain ⟨hcfg, hst, ha1, ha2, haC, ha1lb, hfl, hm1, hmP, hP⟩ := layout_facts_4096 P hf
  simp only [assembleImage]
  rw [bufCopy_data_skip, bufCopy_data_skip, bufCopy_data_take]
  · congr 1
    ring
  · simp only [bufCopy_size, bufAlloc_size, mkConfigRecord_size]
    omega
  · omega
  · simp only [mkConfigRecord_size]
    omega
  · simp only [mkStateHeader_size]
    omega
  · simp only [mkStateHeader_size]
    omega

theorem assemble_data_state1 (fat : Buf) (P : Int)
    (hf : 0 < (calculateWLLayout P 4096).flashSize) {j : Int}
    (hj0 : 0 ≤ j) (hj : j < 64) :
    (assembleImage fat P 4096).data ((calculateWLLayout P 4096).addrState1 + j) =
      (mkStateHeader 4096 (calculateWLLayout P 4096).maxPos
        (configRecordCrc P 4096)).data j := by
  obtain ⟨hcfg, hst, ha1, ha2, haC, ha1lb, hfl, hm1, hmP, hP⟩ := layout_facts_4096 P hf
  simp only [assembleImage]
  rw [bufCopy_data_skip, bufCopy_data_take]
  · congr 1
    ring
  · simp only [bufCopy_size, bufAlloc_size, mkStateHeader_size]
    omega
  · omega
  · simp only [mkStateHeader_size]
    omega
  · simp only [mkStateHeader_size]
    omega

theorem assemble_data_state2 (fat : Buf) (P : Int)
    (hf : 0 < (calculateWLLayout P 4096).flashSize) {j : Int}
    (hj0 : 0 ≤ j) (hj : j < 64) :
    (assembleImage fat P 4096).data ((calculateWLLayout P 4096).addrState2 + j) =
      (mkStateHeader 4096 (calculateWLLayout P 4096).maxPos
        (configRecordCrc P 4096)).data j := by
  obtain ⟨hcfg, hst, ha1, ha2, haC, ha1lb, hfl, hm1, hmP, hP⟩ := layout_facts_4096 P hf
  simp only [assembleImage]
  rw [bufCopy_data_take]
  · congr 1
    ring
  · simp only [bufCopy_size, bufAlloc_size, mkStateHeader_size]
    omega
  · omega
  · simp only [mkStateHeader_size]
    omega

theorem assemble_data_fat (fat : Buf) (P : Int)
    (hf : 0 < (calculateWLLayout P 4096).flashSize)
    (hsz : fat.size = (calculateWLLayout P 4096).flashSize) {i : Int}
    (hi0 : 0 ≤ i) (hi : i < (calculateWLLayout P 4096).flashSize) :
    (assembleImage fat P 4096).data (4096 + i) = fat.data i := by
  obtain ⟨hcfg, hst, ha1, ha2, haC, ha1lb, hfl, hm1, hmP, hP⟩ := layout_facts_4096 P hf
  simp only [assembleImage]
  rw [bufCopy_data_skip, bufCopy_data_skip, bufCopy_data_skip, bufCopy_data_take]
  · congr 1
    ring
  · simp only [bufCopy_size, bufAlloc_size]
    omega
  · omega
  · omega
  · simp only [mkConfigRecord_size]
    omega
  · simp only [mkStateHeader_size]
    omega
  · simp only [mkStateHeader_size]
    omega

theorem assemble_data_ff (fat : Buf) (P : Int)
    (hf : 0 < (calculateWLLayout P 4096).flashSize)
    (hsz : fat.size = (calculateWLLayout P 4096).flashSize) {i : Int}
    (h1 : ¬(4096 ≤ i ∧ i < 4096 + (calculateWLLayout P 4096).flashSize))
    (h2 : ¬((calculateWLLayout P 4096).addrCfg ≤ i ∧
      i < (calculateWLLayout P 4096).addrCfg + 36))
    (h3 : ¬((calculateWLLayout P 4096).addrState1 ≤ i ∧
      i < (calculateWLLayout P 4096).addrState1 + 64))
    (h4 : ¬((calculateWLLayout P 4096).addrState2 ≤ i ∧
      i < (calculateWLLayout P 4096).addrState2 + 64)) :
    (assembleImage fat P 4096).data i = 0xFF := by
  obtain ⟨hcfg, hst, ha1, ha2, haC, ha1lb, hfl, hm1, hmP, hP⟩ := layout_facts_4096 P hf
  simp only [assembleImage]
  rw [bufCopy_data_skip, bufCopy_data_skip, bufCopy_data_skip, bufCopy_data_skip]
  · rfl
  · omega
  · simp only [mkConfigRecord_size]
    omega
  · simp only [mkStateHeader_size]
    omega
  · simp only [mkStateHeader_size]
    omega

theorem assemble_read_cfg (fat : Buf) (P : Int)
    (hf : 0 < (calculateWLLayout P 4096).flashSize) {k : Int}
    (h0 : 0 ≤ k) (hk : k + 4 ≤ 36) :
    readU32LE (assembleImage fat P 4096) ((calculateWLLayout P 4096).addrCfg + k) =
      readU32LE (mkConfigRecord P 4096) k := by
  unfold readU32LE
  have e1 : (calculateWLLayout P 4096).addrCfg + k + 1 =
      (calculateWLLayout P 4096).addrCfg + (k + 1) := by ring
  have e2 : (calculateWLLayout P 4096).addrCfg + k + 2 =
      (calculateWLLayout P 4096).addrCfg + (k + 2) := by ring
  have e3 : (calculateWLLayout P 4096).addrCfg + k + 3 =
      (calculateWLLayout P 4096).addrCfg + (k + 3) := by ring
  rw [e1, e2, e3, assemble_data_cfg fat P hf h0 (by omega),
    assemble_data_cfg fat P hf (by omega) (by omega),
    assemble_data_cfg fat P hf (by omega) (by omega),
    assemble_data_cfg fat P hf (by omega) (by omega)]

theorem assemble_read_state1 (fat : Buf) (P : Int)
    (hf : 0 < (calculateWLLayout P 4096).flashSize) {k : Int}
    (h0 : 0 ≤ k) (hk : k + 4 ≤ 64) :
    readU32LE (assembleImage fat P 4096)
        ((calculateWLLayout P 4096).addrState1 + k) =
      readU32LE (mkStateHeader 4096 (calculateWLLayout P 4096).maxPos
        (configRecordCrc P 4096)) k := by
  unfold readU32LE
  have e1 : (calculateWLLayout P 4096).addrState1 + k + 1 =
      (calculateWLLayout P 4096).addrState1 + (k + 1) := by ring
  have e2 : (calculateWLLayout P 4096).addrState1 + k + 2 =
      (calculateWLLayout P 4096).addrState1 + (k + 2) := by ring
  have e3 : (calculateWLLayout P 4096).addrState1 + k + 3 =
      (calculateWLLayout P 4096).addrState1 + (k + 3) := by ring
  rw [e1, e2, e3, assemble_data_state1 fat P hf h0 (by omega),
    assemble_data_state1 fat P hf (by omega) (by omega),
    assemble_data_state1 fat P hf (by omega) (by omega),
    assemble_data_state1 fat P hf (by omega) (by omega)]

theorem mkConfigPre_data_lt (P s j : Int) : (mkConfigPre P s).data j < 256 := by
  simp only [mkConfigPre, bufWriteU32LE, bufAlloc]
  split_ifs <;> omega

theorem mkStatePre_data_lt (s m : Int) (d : Nat) (j : Int) :
    (mkStatePre s m d).data j < 256 := by
  simp only [mkStatePre, bufWriteU32LE, bufAlloc]
  split_ifs <;> omega

theorem wlCrc32_lt_of_bytes {l : List Nat} (h : ∀ x ∈ l, x < 256) :
    wlCrc32 l < 4294967296 := by
  have hb := @crc_foldl_lt l (fun x hx => lt_trans (h x hx) (by norm_num))
    0xFFFFFFFF (show (0xFFFFFFFF : Nat) < 2 ^ 32 by norm_num)
  simpa using hb

theorem configRecordCrc_lt (P s : Int) : configRecordCrc P s < 4294967296 := by
  rw [configRecordCrc_eq]
  apply wlCrc32_lt_of_bytes
  intro x hx
  obtain ⟨k, hk, rfl⟩ := List.mem_map.mp hx
  exact mkConfigPre_data_lt P s k

theorem stateRecordCrc_lt (s m : Int) (d : Nat) : stateRecordCrc s m d < 4294967296 := by
  rw [stateRecordCrc_eq]
  apply wlCrc32_lt_of_bytes
  intro x hx
  obtain ⟨k, hk, rfl⟩ := List.mem_map.mp hx
  exact mkStatePre_data_lt s m d k

/-! ### C1: shape of the assembled image -/

/-- C1: for every raw image whose length equals the layout's flashSize,
the assembler succeeds with a buffer of length partitionSize in which
bytes [sectorSize, sectorSize+flashSize) equal the raw image byte for
byte, bytes [0, sectorSize) are all 0xFF, and every byte outside the
copied raw image, the 36-byte config record at addrCfg and the two
64-byte state headers at addrState1/addrState2 is 0xFF.  The bound
partitionSize < 2^32 keeps every `writeUInt32LE` value inside the range
Node accepts, so the buffer model is faithful on this domain. -/
theorem claim_C1_assembler_image_layout (fatImage : Buf) (partitionSize : Int)
    (hf : 0 < (calculateWLLayout partitionSize 4096).flashSize)
    (hP32 : partitionSize < 4294967296)
    (hsz : fatImage.size = (calculateWLLayout partitionSize 4096).flashSize) :
    ∃ out : Buf,
      wrapWithWearLeveling fatImage partitionSize 4096 = Except.ok out ∧
      out.size = partitionSize ∧
      (∀ i : Int, 0 ≤ i → i < 4096 → out.data i = 0xFF) ∧
      (∀ i : Int, 0 ≤ i → i < (calculateWLLayout partitionSize 4096).flashSize →
        out.data (4096 + i) = fatImage.data i) ∧
      (∀ i : Int, 0 ≤ i → i < partitionSize →
        ¬(4096 ≤ i ∧ i < 4096 + (calculateWLLayout partitionSize 4096).flashSize) →
        ¬((calculateWLLayout partitionSize 4096).addrCfg ≤ i ∧
          i < (calculateWLLayout partitionSize 4096).addrCfg + 36) →
        ¬((calculateWLLayout partitionSize 4096).addrState1 ≤ i ∧
          i < (calculateWLLayout partitionSize 4096).addrState1 + 64) →
        ¬((calculateWLLayout partitionSize 4096).addrState2 ≤ i ∧
          i < (calculateWLLayout partitionSize 4096).addrState2 + 64) →
        out.data i = 0xFF) := by
  refine ⟨assembleImage fatImage partitionSize 4096, wrap_ok _ _ _ hsz, rfl, ?_, ?_, ?_⟩
  · intro i h0 hi
    obtain ⟨hcfg, hst, ha1, ha2, haC, ha1lb, hfl, hm1, hmP, hP⟩ :=
      layout_facts_4096 partitionSize hf
    exact assemble_data_ff fatImage partitionSize hf hsz (by omega) (by omega)
      (by omega) (by omega)
  · intro i h0 hi
    exact assemble_data_fat fatImage partitionSize hf hsz h0 hi
  · intro i _ _ h1 h2 h3 h4
    exact assemble_data_ff fatImage partitionSize hf hsz h1 h2 h3 h4

/-- Witness for C1: a concrete all-zero raw image of the exact usable size
for the 0x170000 partition. -/
theorem claim_C1_assembler_image_layout_witness :
    (0 < (calculateWLLayout 0x170000 4096).flashSize ∧
      (0x170000 : Int) < 4294967296 ∧
      (bufAlloc 1490944 0).size = (calculateWLLayout 0x170000 4096).flashSize) ∧
    (∃ out : Buf,
      wrapWithWearLeveling (bufAlloc 1490944 0) 0x170000 4096 = Except.ok out ∧
      out.size = 0x170000 ∧
      (∀ i : Int, 0 ≤ i → i < 4096 → out.data i = 0xFF) ∧
      (∀ i : Int, 0 ≤ i → i < (calculateWLLayout 0x170000 4096).flashSize →
        out.data (4096 + i) = (bufAlloc 1490944 0).data i) ∧
      (∀ i : Int, 0 ≤ i → i < 0x170000 →
        ¬(4096 ≤ i ∧ i < 4096 + (calculateWLLayout 0x170000 4096).flashSize) →
        ¬((calculateWLLayout 0x170000 4096).addrCfg ≤ i ∧
          i < (calculateWLLayout 0x170000 4096).addrCfg + 36) →
        ¬((calculateWLLayout 0x170000 4096).addrState1 ≤ i ∧
          i < (calculateWLLayout 0x170000 4096).addrState1 + 64) →
        ¬((calculateWLLayout 0x170000 4096).addrState2 ≤ i ∧
          i < (calculateWLLayout 0x170000 4096).addrState2 + 64) →
        out.data i = 0xFF)) :=
  ⟨⟨by decide, by decide, by decide⟩,
    claim_C1_assembler_image_layout (bufAlloc 1490944 0) 0x170000 (by decide)
      (by decide) (by decide)⟩

/-! ### C2: contents of the config record and the state headers -/

/-- C2: in every assembled image the 36-byte config record at addrCfg has
little-endian u32 fields start_addr=0, full_mem_size=partitionSize,
page_size=sectorSize, sector_size=sectorSize, updaterate=16, wr_size=16,
version=2, temp_buff_size=32 followed by the Checksum Engine's output
over the preceding 32 bytes; the two 64-byte state headers at addrState1
and addrState2 are byte-identical, with pos=0, max_pos=maxPos,
move_count=0, access_count=0, max_count=16, block_size=sectorSize,
version=2, device_id equal to the crc32 of the config record's first 32
bytes, 28 zero bytes, and a final crc32 over the preceding 60 bytes. -/
theorem claim_C2_metadata_records (fatImage : Buf) (partitionSize : Int)
    (hf : 0 < (calculateWLLayout partitionSize 4096).flashSize)
    (hP32 : partitionSize < 4294967296)
    (hsz : fatImage.size = (calculateWLLayout partitionSize 4096).flashSize) :
    ∃ out : Buf,
      wrapWithWearLeveling fatImage partitionSize 4096 = Except.ok out ∧
      readU32LE out (calculateWLLayout partitionSize 4096).addrCfg = 0 ∧
      (readU32LE out ((calculateWLLayout partitionSize 4096).addrCfg + 4) : Int) =
        partitionSize ∧
      readU32LE out ((calculateWLLayout partitionSize 4096).addrCfg + 8) = 4096 ∧
      readU32LE out ((calculateWLLayout partitionSize 4096).addrCfg + 12) = 4096 ∧
      readU32LE out ((calculateWLLayout partitionSize 4096).addrCfg + 16) = 16 ∧
      readU32LE out ((calculateWLLayout partitionSize 4096).addrCfg + 20) = 16 ∧
      readU32LE out ((calculateWLLayout partitionSize 4096).addrCfg + 24) = 2 ∧
      readU32LE out ((calculateWLLayout partitionSize 4096).addrCfg + 28) = 32 ∧
      readU32LE out ((calculateWLLayout partitionSize 4096).addrCfg + 32) =
        wlCrc32 ((List.range 32).map fun k : Nat =>
          out.data ((calculateWLLayout partitionSize 4096).addrCfg + (k : Int))) ∧
      (∀ j : Int, 0 ≤ j → j < 64 →
        out.data ((calculateWLLayout partitionSize 4096).addrState1 + j) =
          out.data ((calculateWLLayout partitionSize 4096).addrState2 + j)) ∧
      readU32LE out (calculateWLLayout partitionSize 4096).addrState1 = 0 ∧
      (readU32LE out ((calculateWLLayout partitionSize 4096).addrState1 + 4) : Int) =
        (calculateWLLayout partitionSize 4096).maxPos ∧
      readU32LE out ((calculateWLLayout partitionSize 4096).addrState1 + 8) = 0 ∧
      readU32LE out ((calculateWLLayout partitionSize 4096).addrState1 + 12) = 0 ∧
      readU32LE out ((calculateWLLayout partitionSize 4096).addrState1 + 16) = 16 ∧
      readU32LE out ((calculateWLLayout partitionSize 4096).addrState1 + 20) = 4096 ∧
      readU32LE out ((calculateWLLayout partitionSize 4096).addrState1 + 24) = 2 ∧
      readU32LE out ((calculateWLLayout partitionSize 4096).addrState1 + 28) =
        wlCrc32 ((List.range 32).map fun k : Nat =>
          out.data ((calculateWLLayout partitionSize 4096).addrCfg + (k : Int))) ∧
      (∀ j : Int, 32 ≤ j → j < 60 →
        out.data ((calculateWLLayout partitionSize 4096).addrState1 + j) = 0) ∧
      readU32LE out ((calculateWLLayout partitionSize 4096).addrState1 + 60) =
        wlCrc32 ((List.range 60).map fun k : Nat =>
          out.data ((calculateWLLayout partitionSize 4096).addrState1 + (k : Int))) := by
  obtain ⟨hcfg, hst, ha1, ha2, haC, ha1lb, hfl, hm1, hmP, hP⟩ :=
    layout_facts_4096 partitionSize hf
  have hcfgbytes :
      ((List.range 32).map fun k : Nat =>
        (assembleImage fatImage partitionSize 4096).data
          ((calculateWLLayout partitionSize 4096).addrCfg + (k : Int))) =
      (List.range 32).map fun k : Nat =>
        (mkConfigPre partitionSize 4096).data (k : Int) := by
    apply List.map_congr_left
    intro k hk
    have hk32 := List.mem_range.mp hk
    rw [assemble_data_cfg fatImage partitionSize hf (by omega) (by omega),
      mkConfigRecord_data_low partitionSize 4096 (by omega)]
  have hcrc1 :
      wlCrc32 ((List.range 32).map fun k : Nat =>
        (assembleImage fatImage partitionSize 4096).data
          ((calculateWLLayout partitionSize 4096).addrCfg + (k : Int))) =
      configRecordCrc partitionSize 4096 := by
    rw [hcfgbytes]
    exact (configRecordCrc_eq partitionSize 4096).symm
  have hstbytes :
      ((List.range 60).map fun k : Nat =>
        (assembleImage fatImage partitionSize 4096).data
          ((calculateWLLayout partitionSize 4096).addrState1 + (k : Int))) =
      (List.range 60).map fun k : Nat =>
        (mkStatePre 4096 (calculateWLLayout partitionSize 4096).maxPos
          (configRecordCrc partitionSize 4096)).data (k : Int) := by
    apply List.map_congr_left
    intro k hk
    have hk60 := List.mem_range.mp hk
    rw [assemble_data_state1 fatImage partitionSize hf (by omega) (by omega),
      mkStateHeader_data_low 4096 (calculateWLLayout partitionSize 4096).maxPos
        (configRecordCrc partitionSize 4096) (by omega)]
  have hcrc2 :
      wlCrc32 ((List.range 60).map fun k : Nat =>
        (assembleImage fatImage partitionSize 4096).data
          ((calculateWLLayout partitionSize 4096).addrState1 + (k : Int))) =
      stateRecordCrc 4096 (calculateWLLayout partitionSize 4096).maxPos
        (configRecordCrc partitionSize 4096) := by
    rw [hstbytes]
    exact (stateRecordCrc_eq 4096 (calculateWLLayout partitionSize 4096).maxPos
      (configRecordCrc partitionSize 4096)).symm
  refine ⟨assembleImage fatImage partitionSize 4096, wrap_ok _ _ _ hsz,
    ?_, ?_, ?_, ?_, ?_, ?_, ?_, ?_, ?_, ?_, ?_, ?_, ?_, ?_, ?_, ?_, ?_, ?_, ?_, ?_⟩
  · have h := @assemble_read_cfg fatImage partitionSize hf 0 (by norm_num) (by norm_num)
    rw [add_zero] at h
    rw [h, mkConfigRecord_read_0]
  · rw [@assemble_read_cfg fatImage partitionSize hf 4 (by norm_num) (by norm_num),
      mkConfigRecord_read_4]
    omega
  · rw [@assemble_read_cfg fatImage partitionSize hf 8 (by norm_num) (by norm_num),
      mkConfigRecord_read_8]
    omega
  · rw [@assemble_read_cfg fatImage partitionSize hf 12 (by norm_num) (by norm_num),
      mkConfigRecord_read_12]
    omega
  · rw [@assemble_read_cfg fatImage partitionSize hf 16 (by norm_num) (by norm_num),
      mkConfigRecord_read_16]
  · rw [@assemble_read_cfg fatImage partitionSize hf 20 (by norm_num) (by norm_num),
      mkConfigRecord_read_20]
  · rw [@assemble_read_cfg fatImage partitionSize hf 24 (by norm_num) (by norm_num),
      mkConfigRecord_read_24]
  · rw [@assemble_read_cfg fatImage partitionSize hf 28 (by norm_num) (by norm_num),
      mkConfigRecord_read_28]
  · rw [@assemble_read_cfg fatImage partitionSize hf 32 (by norm_num) (by norm_num),
      mkConfigRecord_read_32, hcrc1]
    exact Nat.mod_eq_of_lt (configRecordCrc_lt partitionSize 4096)
  · intro j h0 h64
    rw [assemble_data_state1 fatImage partitionSize hf h0 h64,
      assemble_data_state2 fatImage partitionSize hf h0 h64]
  · have h := @assemble_read_state1 fatImage partitionSize hf 0 (by norm_num) (by norm_num)
    rw [add_zero] at h
    rw [h, mkStateHeader_read_0]
  · rw [@assemble_read_state1 fatImage partitionSize hf 4 (by norm_num) (by norm_num),
      mkStateHeader_read_4]
    omega
  · rw [@assemble_read_state1 fatImage partitionSize hf 8 (by norm_num) (by norm_num),
      mkStateHeader_read_8]
  · rw [@assemble_read_state1 fatImage partitionSize hf 12 (by norm_num) (by norm_num),
      mkStateHeader_read_12]
  · rw [@assemble_read_state1 fatImage partitionSize hf 16 (by norm_num) (by norm_num),
      mkStateHeader_read_16]
  · rw [@assemble_read_state1 fatImage partitionSize hf 20 (by norm_num) (by norm_num),
      mkStateHeader_read_20]
    omega
  · rw [@assemble_read_state1 fatImage partitionSize hf 24 (by norm_num) (by norm_num),
      mkStateHeader_read_24]
  · rw [@assemble_read_state1 fatImage partitionSize hf 28 (by norm_num) (by norm_num),
      mkStateHeader_read_28, hcrc1]
    exact Nat.mod_eq_of_lt (configRecordCrc_lt partitionSize 4096)
  · intro j h32 h60
    rw [assemble_data_state1 fatImage partitionSize hf (by omega) (by omega),
      mkStateHeader_data_low 4096 (calculateWLLayout partitionSize 4096).maxPos
        (configRecordCrc partitionSize 4096) (by omega),
      mkStatePre_data_high 4096 (calculateWLLayout partitionSize 4096).maxPos
        (configRecordCrc partitionSize 4096) (by omega)]
  · rw [@assemble_read_state1 fatImage partitionSize hf 60 (by norm_num) (by norm_num),
      mkStateHeader_read_60, hcrc2]
    exact Nat.mod_eq_of_lt (stateRecordCrc_lt 4096
      (calculateWLLayout partitionSize 4096).maxPos (configRecordCrc partitionSize 4096))

/-- Witness for C2 at partitionSize 0x170000 with an all-zero raw image. -/
theorem claim_C2_metadata_records_witness :
    (0 < (calculateWLLayout 0x170000 4096).flashSize ∧
      (0x170000 : Int) < 4294967296 ∧
      (bufAlloc 1490944 0).size = (calculateWLLayout 0x170000 4096).flashSize) ∧
    (∃ out : Buf,
      wrapWithWearLeveling (bufAlloc 1490944 0) 0x170000 4096 = Except.ok out ∧
      readU32LE out (calculateWLLayout 0x170000 4096).addrCfg = 0 ∧
      (readU32LE out ((calculateWLLayout 0x170000 4096).addrCfg + 4) : Int) =
        0x170000 ∧
      readU32LE out ((calculateWLLayout 0x170000 4096).addrCfg + 8) = 4096 ∧
      readU32LE out ((calculateWLLayout 0x170000 4096).addrCfg + 12) = 4096 ∧
      readU32LE out ((calculateWLLayout 0x170000 4096).addrCfg + 16) = 16 ∧
      readU32LE out ((calculateWLLayout 0x170000 4096).addrCfg + 20) = 16 ∧
      readU32LE out ((calculateWLLayout 0x170000 4096).addrCfg + 24) = 2 ∧
      readU32LE out ((calculateWLLayout 0x170000 4096).addrCfg + 28) = 32 ∧
      readU32LE out ((calculateWLLayout 0x170000 4096).addrCfg + 32) =
        wlCrc32 ((List.range 32).map fun k : Nat =>
          out.data ((calculateWLLayout 0x170000 4096).addrCfg + (k : Int))) ∧
      (∀ j : Int, 0 ≤ j → j < 64 →
        out.data ((calculateWLLayout 0x170000 4096).addrState1 + j) =
          out.data ((calculateWLLayout 0x170000 4096).addrState2 + j)) ∧
      readU32LE out (calculateWLLayout 0x170000 4096).addrState1 = 0 ∧
      (readU32LE out ((calculateWLLayout 0x170000 4096).addrState1 + 4) : Int) =
        (calculateWLLayout 0x170000 4096).maxPos ∧
      readU32LE out ((calculateWLLayout 0x170000 4096).addrState1 + 8) = 0 ∧
      readU32LE out ((calculateWLLayout 0x170000 4096).addrState1 + 12) = 0 ∧
      readU32LE out ((calculateWLLayout 0x170000 4096).addrState1 + 16) = 16 ∧
      readU32LE out ((calculateWLLayout 0x170000 4096).addrState1 + 20) = 4096 ∧
      readU32LE out ((calculateWLLayout 0x170000 4096).addrState1 + 24) = 2 ∧
      readU32LE out ((calculateWLLayout 0x170000 4096).addrState1 + 28) =
        wlCrc32 ((List.range 32).map fun k : Nat =>
          out.data ((calculateWLLayout 0x170000 4096).addrCfg + (k : Int))) ∧
      (∀ j : Int, 32 ≤ j → j < 60 →
        out.data ((calculateWLLayout 0x170000 4096).addrState1 + j) = 0) ∧
      readU32LE out ((calculateWLLayout 0x170000 4096).addrState1 + 60) =
        wlCrc32 ((List.range 60).map fun k : Nat =>
          out.data ((calculateWLLayout 0x170000 4096).addrState1 + (k : Int)))) :=
  ⟨⟨by decide, by decide, by decide⟩,
    claim_C2_metadata_records (bufAlloc 1490944 0) 0x170000 (by decide) (by decide)
      (by decide)⟩

/-! ### C6 and C9: the partition-table scan -/

theorem getLast?_cons_eq {α : Type} (a : α) (l : List α) :
    (a :: l).getLast? = some (l.getLast?.getD a) := by
  induction l generalizing a with
  | nil => rfl
  | cons b t ih =>
    rw [List.getLast?_cons_cons, ih b]
    simp

theorem procLine_eq (st : Option Int × Option Int × Option Int) (line : List Char) :
    procLine st line =
      match rowOfLine line with
      | none => st
      | some (sub, off0, len) =>
        let off := if off0 = some 0 then st.1 else off0
        (jadd off len,
          if sub = ['F', 'A', 'T'] then (off, jadd off len) else (st.2.1, st.2.2)) := by
  unfold procLine rowOfLine
  by_cases h : 4 < (splitChar ',' (stripLineComment line)).length
  · simp only [if_pos h]
    split <;> rename_i hfat <;> simp [hfat]
  · simp [h]

theorem foldl_procLine_corr (lines : List (List Char)) :
    ∀ c f g : Option Int,
      (lines.foldl procLine (c, f, g)).2 =
        match ((resolveRows c (qualOfLines lines)).filter
            fun r => decide (r.1 = ['F', 'A', 'T'])).getLast? with
        | some r => (r.2.1, r.2.2)
        | none => (f, g) := by
  induction lines with
  | nil =>
    intro c f g
    rfl
  | cons line rest ih =>
    intro c f g
    rw [List.foldl_cons, procLine_eq]
    cases hrow : rowOfLine line with
    | none =>
      have hq : qualOfLines (line :: rest) = qualOfLines rest := by
        simp [qualOfLines, hrow]
      rw [hq]
      exact ih c f g
    | some row =>
      obtain ⟨sub, off0, len⟩ := row
      have hq : qualOfLines (line :: rest) = (sub, off0, len) :: qualOfLines rest := by
        simp [qualOfLines, hrow]
      rw [hq]
      simp only [resolveRows]
      by_cases hfat : sub = ['F', 'A', 'T']
      · rw [if_pos hfat, ih]
        rw [List.filter_cons_of_pos (by simp [hfat])]
        rw [getLast?_cons_eq]
        cases hl : ((resolveRows
            (jadd (if off0 = some 0 then c else off0) len)
            (qualOfLines rest)).filter
              fun r => decide (r.1 = ['F', 'A', 'T'])).getLast? with
        | none => simp [hl]
        | some r => simp [hl]
      · rw [if_neg hfat, ih]
        rw [List.filter_cons_of_neg (by simp [hfat])]

theorem filter_resolve_no_fat (rows : List (List Char × Option Int × Option Int)) :
    ∀ c : Option Int, (∀ r ∈ rows, r.1 ≠ ['F', 'A', 'T']) →
      (resolveRows c rows).filter (fun r => decide (r.1 = ['F', 'A', 'T'])) = [] := by
  induction rows with
  | nil =>
    intro c _
    rfl
  | cons row rest ih =>
    intro c h
    obtain ⟨sub, off0, len⟩ := row
    simp only [resolveRows]
    rw [List.filter_cons_of_neg
      (by simpa using h (sub, off0, len) (List.mem_cons_self _ _))]
    exact ih _ fun r hr => h r (List.mem_cons_of_mem _ hr)

/-- C9: for every partition-table text in which no row with at least 5
comma-separated fields has trimmed, case-insensitive subtype "FAT", the
parser fails with the not-found error after scanning the whole table. -/
theorem claim_C9_not_found (text : List Char)
    (h : ∀ r ∈ qualRows text, r.1 ≠ ['F', 'A', 'T']) :
    findFatPartition text =
      Except.error "ERROR: FAT partition entry not found in csv file!" := by
  unfold qualRows at h
  have hc := foldl_procLine_corr (splitChar '\n' text) (some (0x8000 + 0xc00))
    (some 0) (some 0)
  rw [filter_resolve_no_fat _ _ h] at hc
  have h1 : ((splitChar '\n' text).foldl procLine
      (some (0x8000 + 0xc00), some 0, some 0)).2.1 = some 0 := by rw [hc]; rfl
  have h2 : ((splitChar '\n' text).foldl procLine
      (some (0x8000 + 0xc00), some 0, some 0)).2.2 = some 0 := by rw [hc]; rfl
  simp only [findFatPartition, h1, h2]
  rfl

/-- Witness for C9: a table whose only row has subtype `nvs`. -/
theorem claim_C9_not_found_witness :
    (∀ r ∈ qualRows ("nvs,data,nvs,0x9000,0x5000".toList), r.1 ≠ ['F', 'A', 'T']) ∧
    findFatPartition ("nvs,data,nvs,0x9000,0x5000".toList) =
      Except.error "ERROR: FAT partition entry not found in csv file!" :=
  ⟨by decide, claim_C9_not_found ("nvs,data,nvs,0x9000,0x5000".toList) (by decide)⟩

/-- C6 (amended): for every partition-table text whose resolved
FAT-subtype rows (cursor seeded at 0x8000 + 0xC00 and advanced to
offset + size after every qualifying row) end with a row whose resolved
start and end are defined (not NaN) and nonzero, the parser returns
exactly that last row's range. -/
theorem claim_C6_parser_last_fat_row (text sub : List Char) (s e : Int)
    (hlast : (fatRows text).getLast? = some (sub, some s, some e))
    (hs : s ≠ 0) (he : e ≠ 0) :
    findFatPartition text = Except.ok (s, e) := by
  unfold fatRows qualRows at hlast
  have hc := foldl_procLine_corr (splitChar '\n' text) (some (0x8000 + 0xc00))
    (some 0) (some 0)
  rw [hlast] at hc
  have h1 : ((splitChar '\n' text).foldl procLine
      (some (0x8000 + 0xc00), some 0, some 0)).2.1 = some s := by rw [hc]
  have h2 : ((splitChar '\n' text).foldl procLine
      (some (0x8000 + 0xc00), some 0, some 0)).2.2 = some e := by rw [hc]
  simp only [findFatPartition, h1, h2]
  rw [if_neg (not_or.mpr ⟨hs, he⟩)]

/-- Counterexample to C6 as stated: this table's single row has 5 fields
and subtype "fat" (so `fatRows` is nonempty), yet the parser returns the
not-found error instead of that row's range, because the row's resolved
end is `-5 + 5 = 0`, which the final falsiness check treats as absent. -/
theorem claim_C6_parser_counterexample :
    fatRows ("n,t,fat,-5,5".toList) ≠ [] ∧
    findFatPartition ("n,t,fat,-5,5".toList) =
      Except.error "ERROR: FAT partition entry not found in csv file!" := by
  refine ⟨by decide, by rfl⟩

/-- Witness for C6 (amended) on a well-formed single-row table. -/
theorem claim_C6_parser_last_fat_row_witness :
    ((fatRows ("ffat,data,fat,0x100000,0x10000".toList)).getLast? =
      some (['F', 'A', 'T'], some 1048576, some 1114112) ∧
      (1048576 : Int) ≠ 0 ∧ (1114112 : Int) ≠ 0) ∧
    findFatPartition ("ffat,data,fat,0x100000,0x10000".toList) =
      Except.ok (1048576, 1114112) :=
  ⟨⟨by decide, by decide, by decide⟩,
    claim_C6_parser_last_fat_row ("ffat,data,fat,0x100000,0x10000".toList)
      ['F', 'A', 'T'] 1048576 1114112 (by decide) (by decide) (by decide)⟩

/-! ### C8 and C10: the numeric literal parser -/

/-- C8: `fancyParseInt` returns 0 for the (trimmed, uppercased) empty
string, parses the ORIGINAL string as hexadecimal when the token contains
"0X", otherwise scales the numeric prefix before the first "K" by 1024 or
before the first "M" by 1024*1024, otherwise parses as decimal; in
particular "0x9000" yields 36864, "16K" yields 16384, "4M" yields
4194304, "" yields 0 and "1000" yields 1000. -/
theorem claim_C8_fancyParseInt :
    (∀ str : List Char, trimChars (str.map Char.toUpper) = [] →
      fancyParseInt str = some 0) ∧
    (∀ str : List Char,
      containsSeq ['0', 'X'] (trimChars (str.map Char.toUpper)) = true →
      fancyParseInt str = jsParseInt str 16) ∧
    (∀ str : List Char,
      containsSeq ['0', 'X'] (trimChars (str.map Char.toUpper)) = false →
      (trimChars (str.map Char.toUpper)).contains 'K' = true →
      fancyParseInt str =
        (jsParseInt ((trimChars (str.map Char.toUpper)).takeWhile
          fun c => c ≠ 'K') 10).map fun n => 1024 * n) ∧
    (∀ str : List Char,
      containsSeq ['0', 'X'] (trimChars (str.map Char.toUpper)) = false →
      (trimChars (str.map Char.toUpper)).contains 'K' = false →
      (trimChars (str.map Char.toUpper)).contains 'M' = true →
      fancyParseInt str =
        (jsParseInt ((trimChars (str.map Char.toUpper)).takeWhile
          fun c => c ≠ 'M') 10).map fun n => 1024 * 1024 * n) ∧
    (∀ str : List Char,
      trimChars (str.map Char.toUpper) ≠ [] →
      containsSeq ['0', 'X'] (trimChars (str.map Char.toUpper)) = false →
      (trimChars (str.map Char.toUpper)).contains 'K' = false →
      (trimChars (str.map Char.toUpper)).contains 'M' = false →
      fancyParseInt str = jsParseInt str 10) ∧
    fancyParseInt ("0x9000".toList) = some 36864 ∧
    fancyParseInt ("16K".toList) = some 16384 ∧
    fancyParseInt ("4M".toList) = some 4194304 ∧
    fancyParseInt ("".toList) = some 0 ∧
    fancyParseInt ("1000".toList) = some 1000 := by
  refine ⟨?_, ?_, ?_, ?_, ?_, by decide, by decide, by decide, by decide, by decide⟩
  · intro str h
    simp [fancyParseInt, h]
  · intro str h
    have hne : trimChars (str.map Char.toUpper) ≠ [] := by
      intro he
      rw [he] at h
      simp [containsSeq] at h
    simp [fancyParseInt, hne, h]
  · intro str h hk
    have hne : trimChars (str.map Char.toUpper) ≠ [] := by
      intro he
      rw [he] at hk
      simp [List.contains] at hk
    have hk2 : 'K' ∈ trimChars (str.map Char.toUpper) := by simpa using hk
    simp [fancyParseInt, hne, h, hk2]
  · intro str h hk hm
    have hne : trimChars (str.map Char.toUpper) ≠ [] := by
      intro he
      rw [he] at hm
      simp [List.contains] at hm
    have hk2 : 'K' ∉ trimChars (str.map Char.toUpper) := by simpa using hk
    have hm2 : 'M' ∈ trimChars (str.map Char.toUpper) := by simpa using hm
    simp [fancyParseInt, hne, h, hk2, hm2]
  · intro str hne h hk hm
    have hk2 : 'K' ∉ trimChars (str.map Char.toUpper) := by simpa using hk
    have hm2 : 'M' ∉ trimChars (str.map Char.toUpper) := by simpa using hm
    simp [fancyParseInt, hne, h, hk2, hm2]

/-- C10: for every token whose trimmed, uppercased form contains both the
hex marker "0X" and a unit suffix "K" or "M", `fancyParseInt` takes the
hexadecimal branch — it parses the original string at radix 16 and
applies no 1024 or 1024*1024 multiplier — because the "0X" check precedes
the "K" and "M" checks. -/
theorem claim_C10_hex_branch_precedence (str : List Char)
    (hhex : containsSeq ['0', 'X'] (trimChars (str.map Char.toUpper)) = true)
    (hunit : (trimChars (str.map Char.toUpper)).contains 'K' = true ∨
      (trimChars (str.map Char.toUpper)).contains 'M' = true) :
    fancyParseInt str = jsParseInt str 16 := by
  have hne : trimChars (str.map Char.toUpper) ≠ [] := by
    intro he
    rw [he] at hhex
    simp [containsSeq] at hhex
  simp [fancyParseInt, hne, hhex]

/-- Witness for C10: the ambiguous token "0x1K" parses as hex (to 1),
with no unit scaling and no rejection. -/
theorem claim_C10_hex_branch_precedence_witness :
    (containsSeq ['0', 'X'] (trimChars (("0x1K".toList).map Char.toUpper)) = true ∧
      (trimChars (("0x1K".toList).map Char.toUpper)).contains 'K' = true) ∧
    fancyParseInt ("0x1K".toList) = jsParseInt ("0x1K".toList) 16 :=
  ⟨⟨by decide, by decide⟩,
    claim_C10_hex_branch_precedence ("0x1K".toList) (by decide) (Or.inl (by decide))⟩
